import Mathlib

/-!
Verification of the JellyCode server against its specification.

The definitions below are a shallow embedding of the server code:
* `pathResolve`, `getFullPath` and the `fs*` operations embed
  `server/lib/fileSystem.ts` (`FileSystemManager`);
* `checkRateLimit` and `runCalls` embed the fixed-window rate limiter of
  `server/routes.ts`;
* `llmValidate` / `fileOpValidate` embed the zod schemas of
  `shared/schema.ts`;
* `llmHandler`, `filesHandler` and `handleEndpoint` embed the Express route
  handlers of `server/routes.ts` (with the Git endpoints of the extended
  `registerRoutes`);
* `deleteProject`, `getProjectFiles`, `getProject` embed
  `server/storage.ts` (`DatabaseStorage`) over a list-of-rows model of
  the relational tables.
-/

namespace JellyCode

/-! ### Path resolution (Node `path.resolve`) and `FileSystemManager.getFullPath` -/

/-- Character-level worker for `splitPath`: split on `/`, dropping empty
segments. -/
def splitPathGo : List Char → List Char → List String
  | [], cur => if cur.isEmpty then [] else [String.mk cur.reverse]
  | c :: rest, cur =>
    if c = '/' then
      (if cur.isEmpty then splitPathGo rest []
       else String.mk cur.reverse :: splitPathGo rest [])
    else splitPathGo rest (c :: cur)

/-- Split an absolute or relative POSIX path into its non-empty segments. -/
def splitPath (s : String) : List String :=
  splitPathGo s.data []

/-- JavaScript `String.prototype.startsWith`. -/
def strStartsWith (s pre : String) : Bool :=
  pre.data.isPrefixOf s.data

/-- Process `.` and `..` segments against an accumulated stack of segments,
as Node path normalization does from the filesystem root (a `..` at the root
stays at the root). -/
def resolveSegs (acc : List String) : List String → List String
  | [] => acc
  | seg :: rest =>
    if seg = "." then resolveSegs acc rest
    else if seg = ".." then resolveSegs acc.dropLast rest
    else resolveSegs (acc ++ [seg]) rest

/-- Render a segment list as an absolute path string. -/
def joinAbs (segs : List String) : String :=
  "/" ++ String.intercalate "/" segs

/-- Node `path.resolve(base, rel)` for an already-absolute, normalized
`base`: an absolute `rel` is normalized on its own, otherwise `rel` is
resolved against `base`. -/
def pathResolve (base rel : String) : String :=
  if strStartsWith rel "/" then joinAbs (resolveSegs [] (splitPath rel))
  else joinAbs (resolveSegs (splitPath base) (splitPath rel))

/-- `FileSystemManager.getFullPath` (`server/lib/fileSystem.ts:21-28`):
resolve the relative path against the workspace root and reject the result
unless the resolved string starts with the workspace root. -/
def getFullPath (root rel : String) : Except String String :=
  let fullPath := pathResolve root rel
  if strStartsWith fullPath root then Except.ok fullPath
  else Except.error "Path outside workspace not allowed"

/-- Spec-side predicate: the resolved path is within the workspace root
directory (it is the root itself or lives strictly below it). -/
def isWithinWorkspace (root p : String) : Bool :=
  p = root || strStartsWith p (root ++ "/")

/-! ### Filesystem state and the `FileSystemManager` operations

Each operation returns its result together with the list of filesystem /
Git / LLM accesses it performed, so that theorems can state that a rejected
request touched nothing. -/

/-- An external access performed by a route handler: a filesystem access at
a resolved absolute path, a Git command, or an LLM API call. -/
inductive Effect where
  | fsRead (p : String)
  | fsWrite (p c : String)
  | fsDelete (p : String)
  | fsList (p : String)
  | fsCreateFolder (p : String)
  | llmCall (prompt : String)
  | gitStatus
  | gitBranches
  | gitStage (files : List String)
  | gitUnstage (files : List String)
  | gitCommit (message : String)
  | gitSwitch (branchName : String)
  | gitCreateBranch (branchName : String)
  | gitPull
  | gitPush
  | gitDiff (p : String)
  | gitHistory (limit : Nat)
  deriving DecidableEq

/-- The on-disk state visible to the file manager: a partial map from
absolute paths to file contents. -/
def FS : Type := String → Option String

/-- `FileSystemManager.writeFile` (`server/lib/fileSystem.ts:132-142`):
resolve and sanitize the path, then store the content at the resolved
absolute path (parent directories are created by `fs.mkdir` and the content
replaces any previous content wholesale). A path rejected by `getFullPath`
throws before any filesystem access. -/
def fsWriteFile (root : String) (fs : FS) (rel content : String) :
    Except String FS × List Effect :=
  match getFullPath root rel with
  | Except.error e => (Except.error e, [])
  | Except.ok p =>
    (Except.ok (fun q => if q = p then some content else fs q),
     [Effect.fsWrite p content])

/-- `FileSystemManager.readFile` (`server/lib/fileSystem.ts:123-130`):
resolve and sanitize the path, then return the stored content, failing when
no file is present at the resolved path. -/
def fsReadFile (root : String) (fs : FS) (rel : String) :
    Except String String × List Effect :=
  match getFullPath root rel with
  | Except.error e => (Except.error e, [])
  | Except.ok p =>
    match fs p with
    | some c => (Except.ok c, [Effect.fsRead p])
    | none => (Except.error ("Failed to read file " ++ rel), [Effect.fsRead p])

/-- `FileSystemManager.deleteFile` (`server/lib/fileSystem.ts:144-156`):
resolve and sanitize the path, `stat` it (failing when nothing is there) and
remove it. The directory case of the source behaves the same over this
file-map model of the disk. -/
def fsDeleteFile (root : String) (fs : FS) (rel : String) :
    Except String FS × List Effect :=
  match getFullPath root rel with
  | Except.error e => (Except.error e, [])
  | Except.ok p =>
    match fs p with
    | some _ =>
      (Except.ok (fun q => if q = p then none else fs q), [Effect.fsDelete p])
    | none => (Except.error ("Failed to delete " ++ rel), [Effect.fsDelete p])

/-- `FileSystemManager.listFiles` (`server/lib/fileSystem.ts:158-197`):
resolve and sanitize the path and enumerate the directory. The recursive
tree it returns is not needed by any theorem below; the model keeps the
sanitization outcome and the access itself and abstracts the enumeration
(the result value is the listed directory's resolved path). -/
def fsListFiles (root : String) (rel : String) :
    Except String String × List Effect :=
  match getFullPath root rel with
  | Except.error e => (Except.error e, [])
  | Except.ok p => (Except.ok p, [Effect.fsList p])

/-- `FileSystemManager.createFolder` (`server/lib/fileSystem.ts:199-206`):
resolve and sanitize the path, then `fs.mkdir` recursively (which succeeds
on this model of the disk). -/
def fsCreateFolder (root : String) (rel : String) :
    Except String String × List Effect :=
  match getFullPath root rel with
  | Except.error e => (Except.error e, [])
  | Except.ok p => (Except.ok p, [Effect.fsCreateFolder p])

/-! ### Rate limiter (`server/routes.ts:12-32`) -/

/-- `LLM_RATE_LIMIT = 10` requests per minute. -/
def LLM_RATE_LIMIT : Nat := 10

/-- `LLM_RATE_WINDOW = 60 * 1000` milliseconds. -/
def LLM_RATE_WINDOW : Nat := 60 * 1000

/-- One entry of the `llmRequestCounts` map. -/
structure RateEntry where
  count : Nat
  resetTime : Nat
  deriving DecidableEq, Repr

/-- The `llmRequestCounts` map: user id to rate entry. -/
def RLMap : Type := String → Option RateEntry

/-- `Map.set` on the rate-limit map. -/
def rlSet (m : RLMap) (k : String) (v : RateEntry) : RLMap :=
  fun k2 => if k2 = k then some v else m k2

/-- `checkRateLimit` (`server/routes.ts:17-32`), with the current time and
the map state passed explicitly: a missing or expired entry starts a fresh
window with count 1; a saturated entry makes the call return `false` without
changing the state; otherwise the count is incremented. -/
def checkRateLimit (m : RLMap) (userId : String) (now : Nat) :
    Bool × RLMap :=
  match m userId with
  | none => (true, rlSet m userId ⟨1, now + LLM_RATE_WINDOW⟩)
  | some userLimit =>
    if now > userLimit.resetTime then
      (true, rlSet m userId ⟨1, now + LLM_RATE_WINDOW⟩)
    else if userLimit.count ≥ LLM_RATE_LIMIT then
      (false, m)
    else
      (true, rlSet m userId ⟨userLimit.count + 1, userLimit.resetTime⟩)

/-- A sequence of `checkRateLimit` calls for one user at the given times,
returning the list of results and the final map state. -/
def runCalls (m : RLMap) (u : String) : List Nat → List Bool × RLMap
  | [] => ([], m)
  | t :: ts =>
    let r := checkRateLimit m u t
    let rest := runCalls r.2 u ts
    (r.1 :: rest.1, rest.2)

/-! ### Request bodies and zod schema validation (`shared/schema.ts`) -/

/-- A JSON field value as the zod string validators see it: either a JSON
string or some non-string JSON value. -/
inductive JVal where
  | jstr (s : String)
  | jnonstr
  deriving DecidableEq

/-- The raw JSON body of `POST /api/llm` (fields present or absent). -/
structure RawLlmBody where
  prompt : Option JVal
  context : Option JVal
  action : Option JVal
  deriving DecidableEq

/-- The raw JSON body of `POST /api/files`. -/
structure RawFileBody where
  path : Option JVal
  content : Option JVal
  operation : Option JVal
  deriving DecidableEq

/-- The raw JSON body of `POST /api/git/stage` and `/api/git/unstage`:
the `files` field is a JSON array (of `JVal`s) or missing/non-array. -/
structure RawStageBody where
  files : Option (List JVal)
  deriving DecidableEq

/-- The raw JSON body of `POST /api/git/commit`. -/
structure RawCommitBody where
  message : Option JVal
  deriving DecidableEq

/-- The `action` enum of `llmRequestSchema`. -/
inductive LlmAction where
  | explain
  | refactor
  | generateTests
  | optimize
  deriving DecidableEq

/-- The `operation` enum of `fileOperationSchema`. -/
inductive FileOp where
  | read
  | write
  | delete
  | list
  deriving DecidableEq

/-- A parsed `llmRequestSchema` value (`shared/schema.ts:50-54`). -/
structure LLMRequest where
  prompt : String
  context : Option String
  action : Option LlmAction
  deriving DecidableEq

/-- A parsed `fileOperationSchema` value (`shared/schema.ts:56-60`). -/
structure FileOperation where
  path : String
  content : Option String
  operation : FileOp
  deriving DecidableEq

/-- zod `z.string().min(1).max(10000)` on the `prompt` field. -/
def zodPrompt : Option JVal → Option String
  | some (JVal.jstr s) =>
    if 1 ≤ s.length ∧ s.length ≤ 10000 then some s else none
  | _ => none

/-- zod `z.string().optional()`: absent is accepted as `none`, a string is
accepted, any other value is rejected. -/
def zodOptString : Option JVal → Option (Option String)
  | none => some none
  | some (JVal.jstr s) => some (some s)
  | some JVal.jnonstr => none

/-- The `action` enum strings of `llmRequestSchema`. -/
def parseAction (s : String) : Option LlmAction :=
  if s = "explain" then some LlmAction.explain
  else if s = "refactor" then some LlmAction.refactor
  else if s = "generate-tests" then some LlmAction.generateTests
  else if s = "optimize" then some LlmAction.optimize
  else none

/-- zod `z.enum([...]).optional()` on the `action` field. -/
def zodOptAction : Option JVal → Option (Option LlmAction)
  | none => some none
  | some (JVal.jstr s) => (parseAction s).map some
  | some JVal.jnonstr => none

/-- `llmRequestSchema.safeParse` (`shared/schema.ts:50-54`): `some` is a
successful parse, `none` a validation failure. -/
def llmValidate (b : RawLlmBody) : Option LLMRequest := do
  let p ← zodPrompt b.prompt
  let c ← zodOptString b.context
  let a ← zodOptAction b.action
  pure ⟨p, c, a⟩

/-- zod `z.string().min(1)` on the `path` field. -/
def zodPathField : Option JVal → Option String
  | some (JVal.jstr s) => if 1 ≤ s.length then some s else none
  | _ => none

/-- The `operation` enum strings of `fileOperationSchema`. -/
def parseFileOp (s : String) : Option FileOp :=
  if s = "read" then some FileOp.read
  else if s = "write" then some FileOp.write
  else if s = "delete" then some FileOp.delete
  else if s = "list" then some FileOp.list
  else none

/-- zod `z.enum(["read", "write", "delete", "list"])`. -/
def zodFileOp : Option JVal → Option FileOp
  | some (JVal.jstr s) => parseFileOp s
  | _ => none

/-- `fileOperationSchema.safeParse` (`shared/schema.ts:56-60`). -/
def fileOpValidate (b : RawFileBody) : Option FileOperation := do
  let p ← zodPathField b.path
  let c ← zodOptString b.content
  let o ← zodFileOp b.operation
  pure ⟨p, c, o⟩

/-- zod `z.array(z.string())` elementwise check. -/
def jstrList : List JVal → Option (List String)
  | [] => some []
  | JVal.jstr s :: rest => (jstrList rest).map (fun l => s :: l)
  | JVal.jnonstr :: _ => none

/-- `gitStageRequestSchema.safeParse` (`shared/schema.ts`, Git schemas):
`{files: z.array(z.string())}`. -/
def stageValidate (b : RawStageBody) : Option (List String) :=
  match b.files with
  | none => none
  | some l => jstrList l

/-- `gitCommitRequestSchema.safeParse` (`shared/schema.ts`, Git schemas):
`{message: z.string().min(1).max(500)}`. -/
def commitValidate (b : RawCommitBody) : Option String :=
  match b.message with
  | some (JVal.jstr s) =>
    if 1 ≤ s.length ∧ s.length ≤ 500 then some s else none
  | _ => none

/-- JavaScript falsiness of a `string | undefined` value: `undefined` and
the empty string are falsy. -/
def strFalsy : Option String → Bool
  | none => true
  | some s => s = ""

/-! ### Route handlers (`server/routes.ts`, with the Git endpoints of the
extended `registerRoutes`)

Each handler takes the authentication outcome of `req.isAuthenticated()`
and the request data, and returns the HTTP status, the `error` field of the
JSON response (when any) and the external accesses performed. Downstream
Git/LLM calls that can fail are given their success as a boolean
(`gitOk` / `llmOk`); a downstream failure is caught by the route's
`try`/`catch` and mapped to 500. -/

/-- The observable outcome of one request against a route that does not
touch the rate-limit map. -/
structure RouteOutcome where
  status : Nat
  error : Option String
  effects : List Effect
  deriving DecidableEq

/-- The 401 response shared by every guarded route:
`res.status(401).json({error: "Authentication required"})`. -/
def auth401 : RouteOutcome :=
  ⟨401, some "Authentication required", []⟩

/-- The observable outcome of one request including the rate-limit map
state after the request. -/
structure Outcome where
  status : Nat
  error : Option String
  effects : List Effect
  rlMap : RLMap

/-- `POST /api/llm` (`server/routes.ts:43-84`): authentication, then rate
limit, then schema validation, then the LLM call dispatch. -/
def llmHandler (auth : Bool) (userId : String) (body : RawLlmBody)
    (m : RLMap) (now : Nat) (llmOk : Bool) : Outcome :=
  if !auth then ⟨401, some "Authentication required", [], m⟩
  else
    let r := checkRateLimit m userId now
    if !r.1 then ⟨429, some "Rate limit exceeded. Try again later.", [], r.2⟩
    else
      match llmValidate body with
      | none => ⟨400, some "Invalid request", [], r.2⟩
      | some q =>
        if llmOk then ⟨200, none, [Effect.llmCall q.prompt], r.2⟩
        else ⟨500, some "Failed to process LLM request",
              [Effect.llmCall q.prompt], r.2⟩

/-- `POST /api/files` (`server/routes.ts:87-131`): authentication, schema
validation, then the requested file operation. In the `write` case the
source guards `if (!content)`, so an absent content and the empty string
are both rejected with 400 before any filesystem access. -/
def filesHandler (auth : Bool) (body : RawFileBody) (root : String)
    (fs : FS) : RouteOutcome :=
  if !auth then auth401
  else
    match fileOpValidate body with
    | none => ⟨400, some "Invalid request", []⟩
    | some op =>
      match op.operation with
      | FileOp.read =>
        match fsReadFile root fs op.path with
        | (Except.ok _, effs) => ⟨200, none, effs⟩
        | (Except.error e, effs) => ⟨500, some e, effs⟩
      | FileOp.write =>
        if strFalsy op.content then
          ⟨400, some "Content required for write operation", []⟩
        else
          match fsWriteFile root fs op.path (op.content.getD "") with
          | (Except.ok _, effs) => ⟨200, none, effs⟩
          | (Except.error e, effs) => ⟨500, some e, effs⟩
      | FileOp.delete =>
        match fsDeleteFile root fs op.path with
        | (Except.ok _, effs) => ⟨200, none, effs⟩
        | (Except.error e, effs) => ⟨500, some e, effs⟩
      | FileOp.list =>
        match fsListFiles root op.path with
        | (Except.ok _, effs) => ⟨200, none, effs⟩
        | (Except.error e, effs) => ⟨500, some e, effs⟩

/-- `GET /api/files/tree` (`server/routes.ts:134-146`): authentication,
then `listFiles()` on the workspace root. -/
def filesTreeHandler (auth : Bool) (root : String) : RouteOutcome :=
  if !auth then auth401
  else
    match fsListFiles root "" with
    | (Except.ok _, effs) => ⟨200, none, effs⟩
    | (Except.error _, effs) => ⟨500, some "Failed to get file tree", effs⟩

/-- `POST /api/files/folder` (`server/routes.ts:149-166`): authentication,
a falsiness check on `path`, then `createFolder`. -/
def folderHandler (auth : Bool) (path : Option String) (root : String) :
    RouteOutcome :=
  if !auth then auth401
  else if strFalsy path then ⟨400, some "Path required", []⟩
  else
    match fsCreateFolder root (path.getD "") with
    | (Except.ok _, effs) => ⟨200, none, effs⟩
    | (Except.error e, effs) => ⟨500, some e, effs⟩

/-- `GET /api/git/status`. -/
def gitStatusHandler (auth gitOk : Bool) : RouteOutcome :=
  if !auth then auth401
  else if gitOk then ⟨200, none, [Effect.gitStatus]⟩
  else ⟨500, some "Failed to get Git status", [Effect.gitStatus]⟩

/-- `GET /api/git/branches`. -/
def gitBranchesHandler (auth gitOk : Bool) : RouteOutcome :=
  if !auth then auth401
  else if gitOk then ⟨200, none, [Effect.gitBranches]⟩
  else ⟨500, some "Failed to get Git branches", [Effect.gitBranches]⟩

/-- `POST /api/git/stage`: authentication, `gitStageRequestSchema`
validation, then `stageFiles`. -/
def gitStageHandler (auth : Bool) (body : RawStageBody) (gitOk : Bool) :
    RouteOutcome :=
  if !auth then auth401
  else
    match stageValidate body with
    | none => ⟨400, some "Invalid request", []⟩
    | some fl =>
      if gitOk then ⟨200, none, [Effect.gitStage fl]⟩
      else ⟨500, some "Failed to stage files", [Effect.gitStage fl]⟩

/-- `POST /api/git/unstage`. -/
def gitUnstageHandler (auth : Bool) (body : RawStageBody) (gitOk : Bool) :
    RouteOutcome :=
  if !auth then auth401
  else
    match stageValidate body with
    | none => ⟨400, some "Invalid request", []⟩
    | some fl =>
      if gitOk then ⟨200, none, [Effect.gitUnstage fl]⟩
      else ⟨500, some "Failed to unstage files", [Effect.gitUnstage fl]⟩

/-- `POST /api/git/commit`: authentication, `gitCommitRequestSchema`
validation, then `commit`. -/
def gitCommitHandler (auth : Bool) (body : RawCommitBody) (gitOk : Bool) :
    RouteOutcome :=
  if !auth then auth401
  else
    match commitValidate body with
    | none => ⟨400, some "Invalid request", []⟩
    | some msg =>
      if gitOk then ⟨200, none, [Effect.gitCommit msg]⟩
      else ⟨500, some "Failed to commit changes", [Effect.gitCommit msg]⟩

/-- `POST /api/git/branch/switch`: authentication, a falsiness check on
`branchName`, then `switchBranch`. -/
def gitSwitchHandler (auth : Bool) (branchName : Option String)
    (gitOk : Bool) : RouteOutcome :=
  if !auth then auth401
  else if strFalsy branchName then ⟨400, some "Branch name required", []⟩
  else
    if gitOk then ⟨200, none, [Effect.gitSwitch (branchName.getD "")]⟩
    else ⟨500, some "Failed to switch branch",
          [Effect.gitSwitch (branchName.getD "")]⟩

/-- `POST /api/git/branch/create`. -/
def gitCreateBranchHandler (auth : Bool) (branchName : Option String)
    (gitOk : Bool) : RouteOutcome :=
  if !auth then auth401
  else if strFalsy branchName then ⟨400, some "Branch name required", []⟩
  else
    if gitOk then ⟨200, none, [Effect.gitCreateBranch (branchName.getD "")]⟩
    else ⟨500, some "Failed to create branch",
          [Effect.gitCreateBranch (branchName.getD "")]⟩

/-- `POST /api/git/pull`. -/
def gitPullHandler (auth gitOk : Bool) : RouteOutcome :=
  if !auth then auth401
  else if gitOk then ⟨200, none, [Effect.gitPull]⟩
  else ⟨500, some "Failed to pull changes", [Effect.gitPull]⟩

/-- `POST /api/git/push`. -/
def gitPushHandler (auth gitOk : Bool) : RouteOutcome :=
  if !auth then auth401
  else if gitOk then ⟨200, none, [Effect.gitPush]⟩
  else ⟨500, some "Failed to push changes", [Effect.gitPush]⟩

/-- `GET /api/git/diff/:path`: authentication, a falsiness check on the
route parameter, then `getFileDiff`. -/
def gitDiffHandler (auth : Bool) (p : String) (gitOk : Bool) :
    RouteOutcome :=
  if !auth then auth401
  else if p = "" then ⟨400, some "File path required", []⟩
  else
    if gitOk then ⟨200, none, [Effect.gitDiff p]⟩
    else ⟨500, some "Failed to get file diff", [Effect.gitDiff p]⟩

/-- `parseInt(req.query.limit) || 10` of `GET /api/git/history`: a missing
or non-numeric limit, and the falsy parse result 0, fall back to 10.
(JavaScript `parseInt` accepts a numeric prefix; a full-string parse stands
in for it, which no theorem below depends on.) -/
def parseLimitOr10 (q : Option String) : Nat :=
  match q with
  | none => 10
  | some s =>
    match s.toNat? with
    | none => 10
    | some 0 => 10
    | some n => n

/-- `GET /api/git/history?limit=`. -/
def gitHistoryHandler (auth : Bool) (limit : Option String)
    (gitOk : Bool) : RouteOutcome :=
  if !auth then auth401
  else
    if gitOk then ⟨200, none, [Effect.gitHistory (parseLimitOr10 limit)]⟩
    else ⟨500, some "Failed to get commit history",
          [Effect.gitHistory (parseLimitOr10 limit)]⟩

/-- Modelled from the spec: `server/auth.ts` (the `setupAuth` that registers
`POST /api/logout` and `GET /api/user`) is not under `src/`. Per the spec,
all endpoints except registration/login require an authenticated session,
and a missing session is answered 401 with the uniform
`{error: "Authentication required"}` body, performing no operation. -/
def sessionEndpointHandler (auth : Bool) : RouteOutcome :=
  if !auth then auth401
  else ⟨200, none, []⟩

/-- The HTTP endpoints registered by `registerRoutes` other than
registration and login, with their request data. -/
inductive Endpoint where
  | llm (body : RawLlmBody)
  | files (body : RawFileBody)
  | filesTree
  | folder (path : Option String)
  | gitStatus
  | gitBranches
  | gitStage (body : RawStageBody)
  | gitUnstage (body : RawStageBody)
  | gitCommit (body : RawCommitBody)
  | gitBranchSwitch (branchName : Option String)
  | gitBranchCreate (branchName : Option String)
  | gitPull
  | gitPush
  | gitDiff (p : String)
  | gitHistory (limit : Option String)
  | logout
  | currentUser

/-- Attach the (unchanged) rate-limit map to a route outcome. -/
def liftOutcome (r : RouteOutcome) (m : RLMap) : Outcome :=
  ⟨r.status, r.error, r.effects, m⟩

/-- Dispatch one request to the handler `registerRoutes` installs for its
endpoint. Only `POST /api/llm` touches the rate-limit map. -/
def handleEndpoint (ep : Endpoint) (auth : Bool) (userId : String)
    (m : RLMap) (now : Nat) (root : String) (fs : FS)
    (llmOk gitOk : Bool) : Outcome :=
  match ep with
  | Endpoint.llm body => llmHandler auth userId body m now llmOk
  | Endpoint.files body => liftOutcome (filesHandler auth body root fs) m
  | Endpoint.filesTree => liftOutcome (filesTreeHandler auth root) m
  | Endpoint.folder p => liftOutcome (folderHandler auth p root) m
  | Endpoint.gitStatus => liftOutcome (gitStatusHandler auth gitOk) m
  | Endpoint.gitBranches => liftOutcome (gitBranchesHandler auth gitOk) m
  | Endpoint.gitStage body => liftOutcome (gitStageHandler auth body gitOk) m
  | Endpoint.gitUnstage body =>
    liftOutcome (gitUnstageHandler auth body gitOk) m
  | Endpoint.gitCommit body =>
    liftOutcome (gitCommitHandler auth body gitOk) m
  | Endpoint.gitBranchSwitch b =>
    liftOutcome (gitSwitchHandler auth b gitOk) m
  | Endpoint.gitBranchCreate b =>
    liftOutcome (gitCreateBranchHandler auth b gitOk) m
  | Endpoint.gitPull => liftOutcome (gitPullHandler auth gitOk) m
  | Endpoint.gitPush => liftOutcome (gitPushHandler auth gitOk) m
  | Endpoint.gitDiff p => liftOutcome (gitDiffHandler auth p gitOk) m
  | Endpoint.gitHistory l => liftOutcome (gitHistoryHandler auth l gitOk) m
  | Endpoint.logout => liftOutcome (sessionEndpointHandler auth) m
  | Endpoint.currentUser => liftOutcome (sessionEndpointHandler auth) m

/-! ### Storage layer (`server/storage.ts`, `DatabaseStorage`)

The relational tables of `shared/schema.ts` are modelled as lists of rows;
a `where eq(col, v)` select is a filter, a delete removes the matching
rows. The nullable foreign keys (`projects.userId`, `files.projectId`) are
`Option`s, and SQL `eq` against a `NULL` column does not match. -/

/-- A row of the `projects` table (`shared/schema.ts:12-17`). -/
structure ProjectRow where
  id : String
  name : String
  userId : Option String
  deriving DecidableEq

/-- A row of the `files` table (`shared/schema.ts:19-25`). -/
structure FileRow where
  id : String
  path : String
  content : String
  projectId : Option String
  deriving DecidableEq

/-- The database state the storage layer operates on. -/
structure DBState where
  projects : List ProjectRow
  files : List FileRow
  deriving DecidableEq

/-- `DatabaseStorage.deleteProject` (`server/storage.ts:88-92`): delete all
file rows whose `projectId` equals the id, then the project row itself. -/
def deleteProject (db : DBState) (id : String) : DBState :=
  { projects := db.projects.filter (fun p => !(p.id == id)),
    files := db.files.filter (fun f => !(f.projectId == some id)) }

/-- `DatabaseStorage.getProjectFiles` (`server/storage.ts:100-103`): select
the file rows whose `projectId` equals the given project id. -/
def getProjectFiles (db : DBState) (projectId : String) : List FileRow :=
  db.files.filter (fun f => f.projectId == some projectId)

/-- `DatabaseStorage.getProject` (`server/storage.ts:70-73`): the first row
of the select, or `undefined`. -/
def getProject (db : DBState) (id : String) : Option ProjectRow :=
  (db.projects.filter (fun p => p.id == id)).head?

/-! ### Theorems -/

/-- C1: the claim states that every relative path resolving outside the
workspace root is rejected by `getFullPath`. The sanitizer only checks that
the resolved string starts with the workspace root, so a sibling directory
whose name extends the root's name slips through: with workspace root
`/root/workspace`, the relative path `../workspace-evil` resolves to
`/root/workspace-evil`, which is outside the workspace root directory, yet
`getFullPath` accepts it and the operation proceeds to access it. This
contradicts the code's own stated intent (`// Security check: ensure path
is within workspace`). -/
theorem getFullPath_sibling_escape :
    getFullPath "/root/workspace" "../workspace-evil"
        = Except.ok "/root/workspace-evil"
      ∧ isWithinWorkspace "/root/workspace" "/root/workspace-evil" = false := by
  constructor <;> rfl

/-- C4: reading a file back immediately after a successful write returns
exactly the written content. -/
theorem writeFile_readFile_roundtrip (root : String) (fs : FS)
    (rel content : String) (fs2 : FS)
    (h : (fsWriteFile root fs rel content).1 = Except.ok fs2) :
    (fsReadFile root fs2 rel).1 = Except.ok content := by
  unfold fsWriteFile at h
  cases hg : getFullPath root rel with
  | error e =>
    rw [hg] at h
    exact absurd h (by simp)
  | ok p =>
    rw [hg] at h
    simp only at h
    have h2 : fs2 = fun q => if q = p then some content else fs q :=
      (Except.ok.injEq _ _ ▸ h).symm
    unfold fsReadFile
    rw [hg, h2]
    simp

/-- C4 witness: a concrete write/read round trip. -/
theorem writeFile_readFile_roundtrip_witness :
    (fsReadFile "/w"
        (fun q => if q = "/w/a.txt" then some "hello" else none) "a.txt").1
      = Except.ok "hello" :=
  writeFile_readFile_roundtrip "/w" (fun _ => none) "a.txt" "hello" _ rfl

/-- C6: a `checkRateLimit` call strictly after the stored `resetTime`
returns `true` and starts a fresh window with count 1 and a reset time one
window ahead, whatever the previous count was. -/
theorem checkRateLimit_window_reset (m : RLMap) (u : String) (now : Nat)
    (e : RateEntry) (hm : m u = some e) (h : now > e.resetTime) :
    checkRateLimit m u now
      = (true, rlSet m u ⟨1, now + LLM_RATE_WINDOW⟩) := by
  unfold checkRateLimit
  rw [hm]
  simp [h]

/-- C6 witness: a window that consumed 7 requests resets at time 6 when its
reset time was 5. -/
theorem checkRateLimit_window_reset_witness :
    checkRateLimit (rlSet (fun _ => none) "u" ⟨7, 5⟩) "u" 6
      = (true, rlSet (rlSet (fun _ => none) "u" ⟨7, 5⟩) "u"
          ⟨1, 6 + LLM_RATE_WINDOW⟩) :=
  checkRateLimit_window_reset _ "u" 6 ⟨7, 5⟩ rfl (by decide)

/-- C5: deleting a project removes the project and all of its files, and
leaves every other project's files unchanged. -/
theorem deleteProject_cascades (db : DBState) (id : String) :
    getProjectFiles (deleteProject db id) id = []
      ∧ getProject (deleteProject db id) id = none
      ∧ ∀ pid, pid ≠ id →
          getProjectFiles (deleteProject db id) pid
            = getProjectFiles db pid := by
  refine ⟨?_, ?_, ?_⟩
  · unfold getProjectFiles deleteProject
    simp [List.filter_filter]
  · unfold getProject deleteProject
    simp [List.filter_filter]
  · intro pid hpid
    unfold getProjectFiles deleteProject
    induction db.files with
    | nil => rfl
    | cons f rest ih =>
      by_cases hf : f.projectId = some pid
      · have hne : ¬ f.projectId = some id := by simp [hf, hpid]
        simp [List.filter_cons, hf, hne, hpid, ih]
      · by_cases hg : f.projectId = some id
        · simp [List.filter_cons, hf, hg, Ne.symm hpid, ih]
        · simp [List.filter_cons, hf, hg, ih]

/-- C5 witness: a two-project database where deleting one project empties
its file list, drops the project row, and keeps the other project's file. -/
theorem deleteProject_cascades_witness :
    getProjectFiles
        (deleteProject
          ⟨[⟨"p1", "one", some "u1"⟩, ⟨"p2", "two", some "u1"⟩],
           [⟨"f1", "a.ts", "1", some "p1"⟩, ⟨"f2", "b.ts", "2", some "p2"⟩]⟩
          "p1") "p2"
      = [⟨"f2", "b.ts", "2", some "p2"⟩] :=
  (deleteProject_cascades
    ⟨[⟨"p1", "one", some "u1"⟩, ⟨"p2", "two", some "u1"⟩],
     [⟨"f1", "a.ts", "1", some "p1"⟩, ⟨"f2", "b.ts", "2", some "p2"⟩]⟩
    "p1").2.2 "p2" (by decide) |>.trans (by decide)

/-- C3: with no authenticated session, every endpoint other than
registration and login answers 401 `{error: "Authentication required"}`,
performs no filesystem, Git or LLM operation, and leaves the rate-limit
map untouched. -/
theorem unauthenticated_request_401 (ep : Endpoint) (u : String)
    (m : RLMap) (now : Nat) (root : String) (fs : FS)
    (llmOk gitOk : Bool) :
    handleEndpoint ep false u m now root fs llmOk gitOk
      = ⟨401, some "Authentication required", [], m⟩ := by
  cases ep <;> rfl

/-- C7: the LLM route applies its rejection checks in the order
authentication, rate limit, schema validation: an unauthenticated request
gets 401 whatever its body; a rate-limited authenticated request gets 429
whatever its body; and a 400 arises only when the request is
authenticated, not rate-limited, and its body fails validation. -/
theorem llm_rejection_order (u : String) (body : RawLlmBody) (m : RLMap)
    (now : Nat) (llmOk : Bool) :
    (llmHandler false u body m now llmOk).status = 401
      ∧ ((checkRateLimit m u now).1 = false →
          (llmHandler true u body m now llmOk).status = 429)
      ∧ ∀ auth : Bool,
          (llmHandler auth u body m now llmOk).status = 400 →
            auth = true ∧ (checkRateLimit m u now).1 = true
              ∧ llmValidate body = none := by
  refine ⟨rfl, ?_, ?_⟩
  · intro h
    unfold llmHandler
    simp [h]
  · intro auth h
    cases auth with
    | false => exact absurd h (by simp [llmHandler])
    | true =>
      cases hr : (checkRateLimit m u now).1 with
      | false => simp [llmHandler, hr] at h
      | true =>
        cases hv : llmValidate body with
        | none => exact ⟨rfl, rfl, rfl⟩
        | some q => cases llmOk <;> simp [llmHandler, hr, hv] at h

/-- C7 witness: a rate-limited authenticated request with an invalid body
is answered 429, not 400. -/
theorem llm_rejection_order_witness :
    (llmHandler true "u" ⟨none, none, none⟩
        (rlSet (fun _ => none) "u" ⟨10, 100⟩) 50 true).status = 429 :=
  (llm_rejection_order "u" ⟨none, none, none⟩
    (rlSet (fun _ => none) "u" ⟨10, 100⟩) 50 true).2.1 rfl

/-- C8: `fileOperationSchema` accepts a `write` body whose content is the
empty string, but the route's JavaScript falsiness guard `if (!content)`
then rejects it with 400 `Content required for write operation` before any
filesystem access, so an empty file cannot be created through the write
operation. -/
theorem files_write_empty_content_rejected (root : String) (fs : FS)
    (body : RawFileBody) (p : String)
    (hp : body.path = some (JVal.jstr p)) (hplen : 1 ≤ p.length)
    (hop : body.operation = some (JVal.jstr "write"))
    (hc : body.content = some (JVal.jstr "")) :
    fileOpValidate body = some ⟨p, some "", FileOp.write⟩
      ∧ filesHandler true body root fs
          = ⟨400, some "Content required for write operation", []⟩ := by
  have h1 : zodPathField body.path = some p := by
    rw [hp]; unfold zodPathField; simp [hplen]
  have hv : fileOpValidate body = some ⟨p, some "", FileOp.write⟩ := by
    unfold fileOpValidate
    rw [h1, hc, hop]
    rfl
  refine ⟨hv, ?_⟩
  unfold filesHandler
  rw [hv]
  rfl

/-- C8 witness: writing `a.txt` with empty content is rejected with 400
and no filesystem effect, though the schema accepted the body. -/
theorem files_write_empty_content_rejected_witness :
    filesHandler true
        ⟨some (JVal.jstr "a.txt"), some (JVal.jstr ""),
         some (JVal.jstr "write")⟩ "/w" (fun _ => none)
      = ⟨400, some "Content required for write operation", []⟩ :=
  (files_write_empty_content_rejected "/w" (fun _ => none)
    ⟨some (JVal.jstr "a.txt"), some (JVal.jstr ""),
     some (JVal.jstr "write")⟩ "a.txt" rfl (by decide) rfl rfl).2

/-- C9: on the LLM route, the rate-limit counter is updated before the body
is validated, so an authenticated, non-rate-limited request whose body
fails `llmRequestSchema` is answered 400 with the map state already
advanced by `checkRateLimit`; in particular a live window's count grows by
one even though the request was rejected. -/
theorem llm_schema_fail_consumes_quota (u : String) (body : RawLlmBody)
    (m : RLMap) (now : Nat) (llmOk : Bool)
    (hrl : (checkRateLimit m u now).1 = true)
    (hv : llmValidate body = none) :
    llmHandler true u body m now llmOk
        = ⟨400, some "Invalid request", [], (checkRateLimit m u now).2⟩
      ∧ ∀ k R, m u = some ⟨k, R⟩ → ¬ now > R →
          (checkRateLimit m u now).2 u = some ⟨k + 1, R⟩ := by
  constructor
  · unfold llmHandler
    simp [hrl, hv]
  · intro k R hm hnow
    unfold checkRateLimit at hrl ⊢
    rw [hm] at hrl ⊢
    by_cases hk : k ≥ LLM_RATE_LIMIT
    · simp [hnow, hk] at hrl
    · simp [hnow, hk, rlSet]

/-- C9 witness: an invalid body (missing prompt) against a window with 3
used requests leaves the window at 4 used requests. -/
theorem llm_schema_fail_consumes_quota_witness :
    (checkRateLimit (rlSet (fun _ => none) "u" ⟨3, 100⟩) "u" 50).2 "u"
      = some ⟨4, 100⟩ :=
  (llm_schema_fail_consumes_quota "u" ⟨none, none, none⟩
    (rlSet (fun _ => none) "u" ⟨3, 100⟩) 50 true rfl rfl).2 3 100 rfl
    (by decide)

/-- C10: `llmRequestSchema` requires the prompt to be a string of length
between 1 and 10000; an authenticated, non-rate-limited request whose
prompt is empty or longer than 10000 characters fails validation, is
answered 400, and performs no LLM call. -/
theorem llm_prompt_length_enforced (u : String) (body : RawLlmBody)
    (m : RLMap) (now : Nat) (llmOk : Bool) (s : String)
    (hp : body.prompt = some (JVal.jstr s))
    (hlen : s.length = 0 ∨ s.length > 10000)
    (hrl : (checkRateLimit m u now).1 = true) :
    llmValidate body = none
      ∧ (llmHandler true u body m now llmOk).status = 400
      ∧ (llmHandler true u body m now llmOk).effects = [] := by
  have hv : llmValidate body = none := by
    unfold llmValidate
    rw [hp]
    have hno : ¬ (1 ≤ s.length ∧ s.length ≤ 10000) := by omega
    unfold zodPrompt
    simp [hno]
  refine ⟨hv, ?_, ?_⟩ <;>
  · unfold llmHandler
    simp [hrl, hv]

/-- C10 witness: an empty prompt from a fresh user is rejected with 400. -/
theorem llm_prompt_length_enforced_witness :
    (llmHandler true "u" ⟨some (JVal.jstr ""), none, none⟩
        (fun _ => none) 0 true).status = 400 :=
  (llm_prompt_length_enforced "u" ⟨some (JVal.jstr ""), none, none⟩
    (fun _ => none) 0 true "" rfl (Or.inl rfl) rfl).2.1

/-- While the window of a live entry still has room, each call returns
`true` and increments the count. -/
theorem runCalls_fill_window (u : String) (R : Nat) :
    ∀ (ts : List Nat) (m : RLMap) (k : Nat),
      m u = some ⟨k, R⟩ →
      k + ts.length ≤ LLM_RATE_LIMIT →
      (∀ t ∈ ts, t ≤ R) →
      (runCalls m u ts).1 = List.replicate ts.length true
        ∧ (runCalls m u ts).2 u = some ⟨k + ts.length, R⟩ := by
  intro ts
  induction ts with
  | nil =>
    intro m k hm _ _
    exact ⟨rfl, by simpa using hm⟩
  | cons t ts ih =>
    intro m k hm hk hts
    have hR : ¬ t > R := Nat.not_lt.mpr (hts t (List.mem_cons_self t ts))
    have hcount : ¬ k ≥ LLM_RATE_LIMIT := by
      simp only [List.length_cons] at hk
      omega
    have hstep : checkRateLimit m u t = (true, rlSet m u ⟨k + 1, R⟩) := by
      unfold checkRateLimit
      rw [hm]
      simp [hR, hcount]
    have hm2 : (rlSet m u ⟨k + 1, R⟩) u = some ⟨k + 1, R⟩ := by
      simp [rlSet]
    have hk2 : (k + 1) + ts.length ≤ LLM_RATE_LIMIT := by
      simp only [List.length_cons] at hk
      omega
    have hts2 : ∀ x ∈ ts, x ≤ R :=
      fun x hx => hts x (List.mem_cons_of_mem _ hx)
    obtain ⟨ha, hb⟩ := ih (rlSet m u ⟨k + 1, R⟩) (k + 1) hm2 hk2 hts2
    have harith : (k + 1) + ts.length = k + (ts.length + 1) := by omega
    constructor
    · simp [runCalls, hstep, ha, List.replicate]
    · rw [harith] at hb
      simpa [runCalls, hstep] using hb

/-- Once the window's count has reached the limit, every further call
within the window returns `false` and leaves the entry unchanged. -/
theorem runCalls_saturated (u : String) (R k : Nat)
    (hk : LLM_RATE_LIMIT ≤ k) :
    ∀ (ts : List Nat) (m : RLMap),
      m u = some ⟨k, R⟩ →
      (∀ t ∈ ts, t ≤ R) →
      (runCalls m u ts).1 = List.replicate ts.length false
        ∧ (runCalls m u ts).2 u = some ⟨k, R⟩ := by
  intro ts
  induction ts with
  | nil => intro m hm _; exact ⟨rfl, hm⟩
  | cons t ts ih =>
    intro m hm hts
    have hR : ¬ t > R := Nat.not_lt.mpr (hts t (List.mem_cons_self t ts))
    have hstep : checkRateLimit m u t = (false, m) := by
      unfold checkRateLimit
      rw [hm]
      simp [hR, hk]
    obtain ⟨ha, hb⟩ :=
      ih m hm (fun x hx => hts x (List.mem_cons_of_mem _ hx))
    exact ⟨by simp [runCalls, hstep, ha, List.replicate],
           by simpa [runCalls, hstep] using hb⟩

/-- C2: starting from no entry for the user, the first ten
`checkRateLimit` calls whose times fall inside the window opened by the
first call all return `true`; every further call inside that window
returns `false`; and an authenticated LLM request at any time inside the
window is then answered 429 with no LLM call and the map unchanged. -/
theorem rate_limit_eleventh_request_rejected (m : RLMap) (u : String)
    (t0 : Nat) (ts1 ts2 : List Nat) (body : RawLlmBody) (llmOk : Bool)
    (hm : m u = none) (hlen : ts1.length = 9)
    (h1 : ∀ t ∈ ts1, t ≤ t0 + LLM_RATE_WINDOW)
    (h2 : ∀ t ∈ ts2, t ≤ t0 + LLM_RATE_WINDOW) :
    (runCalls m u (t0 :: ts1)).1 = List.replicate 10 true
      ∧ (runCalls (runCalls m u (t0 :: ts1)).2 u ts2).1
          = List.replicate ts2.length false
      ∧ ∀ t ≤ t0 + LLM_RATE_WINDOW,
          llmHandler true u body (runCalls m u (t0 :: ts1)).2 t llmOk
            = ⟨429, some "Rate limit exceeded. Try again later.", [],
               (runCalls m u (t0 :: ts1)).2⟩ := by
  have hstep0 : checkRateLimit m u t0
      = (true, rlSet m u ⟨1, t0 + LLM_RATE_WINDOW⟩) := by
    unfold checkRateLimit
    rw [hm]
  have hm1 : (rlSet m u ⟨1, t0 + LLM_RATE_WINDOW⟩) u
      = some ⟨1, t0 + LLM_RATE_WINDOW⟩ := by
    simp [rlSet]
  have hk1 : 1 + ts1.length ≤ LLM_RATE_LIMIT := by
    rw [hlen]; decide
  obtain ⟨ha, hb⟩ := runCalls_fill_window u (t0 + LLM_RATE_WINDOW) ts1
    (rlSet m u ⟨1, t0 + LLM_RATE_WINDOW⟩) 1 hm1 hk1 h1
  have hrun : runCalls m u (t0 :: ts1)
      = (true :: (runCalls (rlSet m u ⟨1, t0 + LLM_RATE_WINDOW⟩) u ts1).1,
         (runCalls (rlSet m u ⟨1, t0 + LLM_RATE_WINDOW⟩) u ts1).2) := by
    simp [runCalls, hstep0]
  have hfull : (runCalls m u (t0 :: ts1)).2 u
      = some ⟨10, t0 + LLM_RATE_WINDOW⟩ := by
    rw [hrun]
    rw [hlen] at hb
    simpa using hb
  refine ⟨?_, ?_, ?_⟩
  · rw [hrun]
    rw [hlen] at ha
    simp [ha, List.replicate]
  · exact (runCalls_saturated u (t0 + LLM_RATE_WINDOW) 10 (by decide)
      ts2 _ hfull h2).1
  · intro t ht
    have hstept : checkRateLimit (runCalls m u (t0 :: ts1)).2 u t
        = (false, (runCalls m u (t0 :: ts1)).2) := by
      unfold checkRateLimit
      rw [hfull]
      simp [Nat.not_lt.mpr ht, LLM_RATE_LIMIT]
    unfold llmHandler
    simp [hstept]

/-- C2 witness: a fresh user making ten calls at time 0 gets ten `true`s,
and an eleventh call at the window edge gets `false`. -/
theorem rate_limit_eleventh_request_rejected_witness :
    (runCalls (fun _ => none) "u" (0 :: List.replicate 9 0)).1
        = List.replicate 10 true
      ∧ (runCalls (runCalls (fun _ => none) "u"
            (0 :: List.replicate 9 0)).2 "u" [60000]).1
          = List.replicate 1 false := by
  have h := rate_limit_eleventh_request_rejected (fun _ => none) "u" 0
    (List.replicate 9 0) [60000] ⟨none, none, none⟩ true rfl (by decide)
    (by decide) (by decide)
  exact ⟨h.1, h.2.1⟩

end JellyCode
